import Mathlib

/-!
Shallow embedding of the audio-routing core of
`src/src-tauri/driver/SendinBeatsAudioDriver.c`.

The core consists of a PID-to-channel routing table (`gMappings` together with
`gMappingCount`, guarded by `gMappingMutex`) and a bank of per-channel sample
buffers (`gChannelBuffers`, guarded by `gBufferMutex`).  We model the two
global structures as one explicit state record and every operation as a pure
state transformer:

  * `MapPIDToChannel`        — the C function of the same name (Register);
  * `UnmapPID`               — the C function of the same name (Unregister);
  * `RouteAudioToChannel`    — the C function of the same name (Deposit);
  * `PlugIn_DoIOOperation`   — the mixing step of the C callback (Produce).

The routing table is modelled as the list of the first `gMappingCount` array
slots, in order.  Audio samples (C `float`) are modelled as rationals; the
claims under verification are about which samples are copied, dropped and
summed, not about rounding.  Frame counts (C `int`/`UInt32` values that are
only ever used non-negatively) are modelled as `Nat`.
-/

/-- `#define MAX_CHANNELS 16` -/
def MAX_CHANNELS : Nat := 16

/-- `#define MAX_PID_MAPPINGS 64` (the spec calls this `MAX_MAPPINGS`). -/
def MAX_PID_MAPPINGS : Nat := 64

/-- `#define BUFFER_FRAMES 1024` -/
def BUFFER_FRAMES : Nat := 1024

/-- `kAudioHardwareNoError` (CoreAudio `OSStatus` success code, value 0). -/
def kAudioHardwareNoError : Int := 0

/-- One entry of the routing table: the C struct `PIDMapping`
(`pid_t pid; int channel; int active;`), with the `int` flag modelled as
`Bool`. -/
structure PIDMapping where
  pid : Int
  channel : Int
  active : Bool

deriving instance DecidableEq for PIDMapping

/-- The shared driver state: `gMappings[0 .. gMappingCount)` as a list and
`gChannelBuffers` as a function from channel index and frame index to a
sample. -/
structure DriverState where
  mappings : List PIDMapping
  buffers : Nat → Nat → ℚ

/-- The list of pids stored in the table, in slot order. -/
def pidsOf (ms : List PIDMapping) : List Int := ms.map PIDMapping.pid

/-- The first loop of `MapPIDToChannel` (lines 64-72): scan the table for an
entry whose `pid` matches (active or not); on the first match overwrite its
`channel`, set `active = 1` and stop.  Returns `none` when no entry matches
(the loop falls through). -/
def mapPIDUpdate (pid channel : Int) : List PIDMapping → Option (List PIDMapping)
  | [] => none
  | m :: ms =>
    if m.pid = pid then
      some ({ pid := m.pid, channel := channel, active := true } :: ms)
    else
      (mapPIDUpdate pid channel ms).map (fun ms2 => m :: ms2)

/-- `MapPIDToChannel` (lines 60-84).  If the pid already has a slot, that slot
is updated in place; otherwise, if `gMappingCount < MAX_PID_MAPPINGS`, a new
active entry is appended; otherwise the call silently does nothing.  The C
function returns `void`: the resulting state is the caller-visible outcome,
and no error value exists. -/
def MapPIDToChannel (pid channel : Int) (st : DriverState) : DriverState :=
  match mapPIDUpdate pid channel st.mappings with
  | some ms => { st with mappings := ms }
  | none =>
    if st.mappings.length < MAX_PID_MAPPINGS then
      { st with mappings := st.mappings ++ [{ pid := pid, channel := channel, active := true }] }
    else
      st

/-- The loop of `UnmapPID` (lines 89-95): find the first entry whose `pid`
matches (regardless of its `active` flag), set `active = 0` and `break`.
No-op when no entry matches. -/
def unmapFirst (pid : Int) : List PIDMapping → List PIDMapping
  | [] => []
  | m :: ms =>
    if m.pid = pid then { m with active := false } :: ms
    else m :: unmapFirst pid ms

/-- `UnmapPID` (lines 86-98).  Deactivates the first slot holding `pid`;
never touches the channel buffers. -/
def UnmapPID (pid : Int) (st : DriverState) : DriverState :=
  { st with mappings := unmapFirst pid st.mappings }

/-- The lookup loop of `RouteAudioToChannel` (lines 106-111): the channel of
the first entry with matching `pid` *and* `active` set, else `none` (the C
code's `ch = -1` sentinel). -/
def lookupActive (pid : Int) : List PIDMapping → Option Int
  | [] => none
  | m :: ms =>
    if m.pid = pid ∧ m.active then some m.channel
    else lookupActive pid ms

/-- `RouteAudioToChannel` (lines 100-120): clamp `frames` to `BUFFER_FRAMES`
(line 101: `if (frames > BUFFER_FRAMES) frames = BUFFER_FRAMES;`), look up the
pid's active channel, and if a channel was found and `0 <= ch < MAX_CHANNELS`
copy the first `frames` samples of `buffer` over the start of that channel's
buffer (`memcpy`, line 117).  Samples at or beyond index `frames` are left
untouched.  Unrouted or out-of-range deposits leave the state unchanged; the
function returns `void`, so no error is signalled in any case. -/
def RouteAudioToChannel (pid : Int) (buffer : Nat → ℚ) (frames : Nat)
    (st : DriverState) : DriverState :=
  let f := if frames > BUFFER_FRAMES then BUFFER_FRAMES else frames
  match lookupActive pid st.mappings with
  | none => st
  | some ch =>
    if 0 ≤ ch ∧ ch < (MAX_CHANNELS : Int) then
      { st with buffers := fun c i =>
          if c = ch.toNat ∧ i < f then buffer i else st.buffers c i }
    else
      st

/-- `memset(outputBuffer, 0, sizeof(float) * framesToCopy)` (line 280):
zero the first `n` cells of the output, leave the rest. -/
def zeroFill (n : Nat) (out : Nat → ℚ) : Nat → ℚ :=
  fun i => if i < n then 0 else out i

/-- The inner loop of lines 283-285: add one channel's first `n` samples into
the output in place. -/
def addChannel (buf : Nat → ℚ) (n : Nat) (out : Nat → ℚ) : Nat → ℚ :=
  fun i => if i < n then out i + buf i else out i

/-- The channel loop of lines 282-286, iterating `ch = 0 .. MAX_CHANNELS-1`. -/
def mixChannels (st : DriverState) (n : Nat) (out : Nat → ℚ) : Nat → ℚ :=
  (List.range MAX_CHANNELS).foldl (fun acc ch => addChannel (st.buffers ch) n acc) (zeroFill n out)

/-- The mixing body of `PlugIn_DoIOOperation` (lines 270-291):
`framesToCopy = min(inIOBufferFrameSize, BUFFER_FRAMES)`; zero-fill then sum
every channel buffer sample-by-sample into the output.  Always returns
`kAudioHardwareNoError`; the driver state itself is not modified. -/
def PlugIn_DoIOOperation (st : DriverState) (inIOBufferFrameSize : Nat)
    (out : Nat → ℚ) : (Nat → ℚ) × Int :=
  let framesToCopy :=
    if inIOBufferFrameSize < BUFFER_FRAMES then inIOBufferFrameSize else BUFFER_FRAMES
  (mixChannels st framesToCopy out, kAudioHardwareNoError)

/-- The state after `AudioDriverPlugInOpen` (lines 158-159): empty table
(`gMappingCount = 0`) and zeroed channel buffers. -/
def initialState : DriverState :=
  { mappings := [], buffers := fun _ _ => 0 }

/-- One externally visible operation on the core (§6 of the spec).  `produce`
reads but does not modify the shared state. -/
inductive Op where
  | register (pid channel : Int)
  | unregister (pid : Int)
  | deposit (pid : Int) (samples : Nat → ℚ) (frames : Nat)
  | produce (frames : Nat)

/-- Apply one operation to the state. -/
def applyOp (st : DriverState) : Op → DriverState
  | Op.register p c => MapPIDToChannel p c st
  | Op.unregister p => UnmapPID p st
  | Op.deposit p s n => RouteAudioToChannel p s n st
  | Op.produce _ => st

/-- The state reached by running a sequence of operations from the freshly
opened driver. -/
def run (ops : List Op) : DriverState :=
  ops.foldl applyOp initialState

/-- Outcome type of the *specified* register operation
(`Register -> Result<(), TableFull>`, spec §6). -/
inductive RegisterOutcome where
  | ok (st : DriverState)
  | tableFull

/-- The register operation as the spec describes it (§4.1): like the code,
but "If capacity is exhausted and the process is new, fail with a `TableFull`
condition".  Kept for comparison with the source's `MapPIDToChannel`, which
returns `void` and has no failure channel. -/
def registerSpec (pid channel : Int) (st : DriverState) : RegisterOutcome :=
  match mapPIDUpdate pid channel st.mappings with
  | some ms => RegisterOutcome.ok { st with mappings := ms }
  | none =>
    if st.mappings.length < MAX_PID_MAPPINGS then
      RegisterOutcome.ok
        { st with mappings := st.mappings ++ [{ pid := pid, channel := channel, active := true }] }
    else
      RegisterOutcome.tableFull

/-! ### Helper lemmas about the routing table -/

theorem pidsOf_nil : pidsOf [] = [] := rfl

theorem pidsOf_cons (m : PIDMapping) (ms : List PIDMapping) :
    pidsOf (m :: ms) = m.pid :: pidsOf ms := rfl

theorem pidsOf_append (ms ms2 : List PIDMapping) :
    pidsOf (ms ++ ms2) = pidsOf ms ++ pidsOf ms2 := by
  simp [pidsOf]

theorem mapPIDUpdate_eq_none_iff (p c : Int) (ms : List PIDMapping) :
    mapPIDUpdate p c ms = none ↔ p ∉ pidsOf ms := by
  induction ms with
  | nil => simp [mapPIDUpdate, pidsOf]
  | cons m ms ih =>
    by_cases h : m.pid = p
    · simp [mapPIDUpdate, h, pidsOf_cons]
    · rw [pidsOf_cons]
      simp only [mapPIDUpdate, if_neg h, Option.map_eq_none', List.mem_cons, not_or]
      rw [ih]
      constructor
      · intro hh
        exact ⟨fun hp => h hp.symm, hh⟩
      · intro hh
        exact hh.2

theorem mapPIDUpdate_isSome_of_mem (p c : Int) (ms : List PIDMapping)
    (h : p ∈ pidsOf ms) : ∃ ms2, mapPIDUpdate p c ms = some ms2 := by
  rcases hcase : mapPIDUpdate p c ms with _ | ms2
  · exact absurd ((mapPIDUpdate_eq_none_iff p c ms).mp hcase) (by simpa using h)
  · exact ⟨ms2, rfl⟩

theorem mapPIDUpdate_pids (p c : Int) (ms ms2 : List PIDMapping)
    (h : mapPIDUpdate p c ms = some ms2) : pidsOf ms2 = pidsOf ms := by
  induction ms generalizing ms2 with
  | nil => simp [mapPIDUpdate] at h
  | cons m ms ih =>
    by_cases hm : m.pid = p
    · simp [mapPIDUpdate, hm] at h
      subst h
      simp [pidsOf, hm]
    · simp [mapPIDUpdate, hm] at h
      rcases h with ⟨ms3, h3, rfl⟩
      have h4 := ih ms3 h3
      simp only [pidsOf, List.map_cons] at h4 ⊢
      rw [h4]

theorem mapPIDUpdate_length (p c : Int) (ms ms2 : List PIDMapping)
    (h : mapPIDUpdate p c ms = some ms2) : ms2.length = ms.length := by
  have := mapPIDUpdate_pids p c ms ms2 h
  simpa [pidsOf] using congrArg List.length this

theorem lookupActive_mapPIDUpdate (p c : Int) (ms ms2 : List PIDMapping)
    (h : mapPIDUpdate p c ms = some ms2) : lookupActive p ms2 = some c := by
  induction ms generalizing ms2 with
  | nil => simp [mapPIDUpdate] at h
  | cons m ms ih =>
    by_cases hm : m.pid = p
    · simp [mapPIDUpdate, hm] at h
      subst h
      simp [lookupActive, hm]
    · simp [mapPIDUpdate, hm] at h
      rcases h with ⟨ms3, h3, rfl⟩
      simp [lookupActive, hm, ih ms3 h3]

theorem lookupActive_eq_none_of_not_mem (p : Int) (ms : List PIDMapping)
    (h : p ∉ pidsOf ms) : lookupActive p ms = none := by
  induction ms with
  | nil => simp [lookupActive]
  | cons m ms ih =>
    rw [pidsOf_cons, List.mem_cons, not_or] at h
    simp only [lookupActive]
    rw [if_neg (fun hc => h.1 hc.1.symm)]
    exact ih h.2

theorem lookupActive_append_single (p c : Int) (ms : List PIDMapping)
    (h : p ∉ pidsOf ms) :
    lookupActive p (ms ++ [{ pid := p, channel := c, active := true }]) = some c := by
  induction ms with
  | nil => simp [lookupActive]
  | cons m ms ih =>
    rw [pidsOf_cons, List.mem_cons, not_or] at h
    rw [List.cons_append]
    simp only [lookupActive]
    rw [if_neg (fun hc => h.1 hc.1.symm)]
    exact ih h.2

theorem unmapFirst_pids (p : Int) (ms : List PIDMapping) :
    pidsOf (unmapFirst p ms) = pidsOf ms := by
  induction ms with
  | nil => simp [unmapFirst]
  | cons m ms ih =>
    by_cases hm : m.pid = p
    · simp [unmapFirst, hm, pidsOf]
    · simp [unmapFirst, hm, pidsOf] at ih ⊢
      exact ih

/-! ### Helper lemmas about `MapPIDToChannel` -/

theorem MapPIDToChannel_buffers (p c : Int) (st : DriverState) :
    (MapPIDToChannel p c st).buffers = st.buffers := by
  rcases h : mapPIDUpdate p c st.mappings with _ | ms2
  · simp only [MapPIDToChannel, h]
    split
    · rfl
    · rfl
  · simp [MapPIDToChannel, h]

theorem MapPIDToChannel_of_mem (p c : Int) (st : DriverState)
    (h : p ∈ pidsOf st.mappings) :
    pidsOf (MapPIDToChannel p c st).mappings = pidsOf st.mappings ∧
      lookupActive p (MapPIDToChannel p c st).mappings = some c := by
  rcases mapPIDUpdate_isSome_of_mem p c st.mappings h with ⟨ms2, h2⟩
  refine ⟨?_, ?_⟩
  · simp [MapPIDToChannel, h2, mapPIDUpdate_pids p c st.mappings ms2 h2]
  · simp [MapPIDToChannel, h2, lookupActive_mapPIDUpdate p c st.mappings ms2 h2]

theorem MapPIDToChannel_of_not_mem_lt (p c : Int) (st : DriverState)
    (h : p ∉ pidsOf st.mappings) (hlen : st.mappings.length < MAX_PID_MAPPINGS) :
    (MapPIDToChannel p c st).mappings
      = st.mappings ++ [{ pid := p, channel := c, active := true }] := by
  have hnone : mapPIDUpdate p c st.mappings = none :=
    (mapPIDUpdate_eq_none_iff p c st.mappings).mpr h
  simp [MapPIDToChannel, hnone, hlen]

theorem MapPIDToChannel_of_not_mem_full (p c : Int) (st : DriverState)
    (h : p ∉ pidsOf st.mappings) (hlen : ¬ st.mappings.length < MAX_PID_MAPPINGS) :
    MapPIDToChannel p c st = st := by
  have hnone : mapPIDUpdate p c st.mappings = none :=
    (mapPIDUpdate_eq_none_iff p c st.mappings).mpr h
  simp [MapPIDToChannel, hnone, hlen]

/-! ### State-independent frame lemmas -/

theorem UnmapPID_buffers (p : Int) (st : DriverState) :
    (UnmapPID p st).buffers = st.buffers := rfl

theorem RouteAudioToChannel_mappings (p : Int) (s : Nat → ℚ) (n : Nat) (st : DriverState) :
    (RouteAudioToChannel p s n st).mappings = st.mappings := by
  rcases h : lookupActive p st.mappings with _ | ch
  · simp [RouteAudioToChannel, h]
  · simp only [RouteAudioToChannel, h]
    split
    · rfl
    · rfl

/-! ### The `Nodup` invariant on table pids (reachable states) -/

theorem nodup_pids_applyOp (st : DriverState) (op : Op)
    (h : (pidsOf st.mappings).Nodup) : (pidsOf (applyOp st op).mappings).Nodup := by
  cases op with
  | register p c =>
    by_cases hp : p ∈ pidsOf st.mappings
    · simpa [applyOp, (MapPIDToChannel_of_mem p c st hp).1] using h
    · by_cases hlen : st.mappings.length < MAX_PID_MAPPINGS
      · rw [applyOp, MapPIDToChannel_of_not_mem_lt p c st hp hlen]
        have hap : pidsOf (st.mappings ++ [{ pid := p, channel := c, active := true }])
            = pidsOf st.mappings ++ [p] := by simp [pidsOf]
        rw [hap]
        exact List.Nodup.append h (List.nodup_singleton p)
          (fun a ha hb => hp ((List.mem_singleton.mp hb) ▸ ha))
      · simpa [applyOp, MapPIDToChannel_of_not_mem_full p c st hp hlen] using h
  | unregister p => simpa [applyOp, UnmapPID, unmapFirst_pids] using h
  | deposit p s n => simpa [applyOp, RouteAudioToChannel_mappings] using h
  | produce n => simpa [applyOp] using h

/-! ### Characterization of `RouteAudioToChannel` -/

theorem routeClamp_eq (frames : Nat) :
    (if frames > BUFFER_FRAMES then BUFFER_FRAMES else frames) = min frames BUFFER_FRAMES := by
  rcases Nat.lt_or_ge BUFFER_FRAMES frames with h | h
  · simp [h, Nat.min_eq_right (Nat.le_of_lt h)]
  · simp [Nat.not_lt.mpr h, Nat.min_eq_left h]

theorem RouteAudioToChannel_of_none (p : Int) (s : Nat → ℚ) (n : Nat) (st : DriverState)
    (h : lookupActive p st.mappings = none) :
    RouteAudioToChannel p s n st = st := by
  simp [RouteAudioToChannel, h]

theorem RouteAudioToChannel_of_out_of_range (p : Int) (s : Nat → ℚ) (n : Nat)
    (st : DriverState) (ch : Int) (h : lookupActive p st.mappings = some ch)
    (hch : ¬ (0 ≤ ch ∧ ch < (MAX_CHANNELS : Int))) :
    RouteAudioToChannel p s n st = st := by
  simp [RouteAudioToChannel, h, hch]

theorem RouteAudioToChannel_buffers_of_some (p : Int) (s : Nat → ℚ) (n : Nat)
    (st : DriverState) (ch : Int) (h : lookupActive p st.mappings = some ch)
    (hch : 0 ≤ ch ∧ ch < (MAX_CHANNELS : Int)) :
    (RouteAudioToChannel p s n st).buffers = fun c i =>
      if c = ch.toNat ∧ i < min n BUFFER_FRAMES then s i else st.buffers c i := by
  simp [RouteAudioToChannel, h, hch, routeClamp_eq]

/-! ### Characterization of the mixing loop -/

theorem foldl_addChannel_apply (L : List Nat) (bufs : Nat → Nat → ℚ) (n : Nat)
    (init : Nat → ℚ) (i : Nat) :
    (L.foldl (fun acc ch => addChannel (bufs ch) n acc) init) i =
      if i < n then init i + (L.map (fun ch => bufs ch i)).sum else init i := by
  induction L generalizing init with
  | nil =>
    by_cases hi : i < n <;> simp [hi]
  | cons ch L ih =>
    simp only [List.foldl_cons, List.map_cons, List.sum_cons]
    rw [ih]
    by_cases hi : i < n
    · simp only [addChannel, hi, if_pos]
      ring
    · simp [addChannel, hi]

theorem mixChannels_apply (st : DriverState) (n : Nat) (out : Nat → ℚ) (i : Nat) :
    mixChannels st n out i =
      if i < n then ((List.range MAX_CHANNELS).map (fun ch => st.buffers ch i)).sum
      else out i := by
  rw [mixChannels, foldl_addChannel_apply]
  by_cases hi : i < n <;> simp [zeroFill, hi]

theorem framesToCopy_eq (n : Nat) :
    (if n < BUFFER_FRAMES then n else BUFFER_FRAMES) = min n BUFFER_FRAMES := by
  rcases Nat.lt_or_ge n BUFFER_FRAMES with h | h
  · simp [h, Nat.min_eq_left (Nat.le_of_lt h)]
  · simp [Nat.not_lt.mpr h, Nat.min_eq_right h]

theorem PlugIn_DoIOOperation_status (st : DriverState) (n : Nat) (out : Nat → ℚ) :
    (PlugIn_DoIOOperation st n out).2 = kAudioHardwareNoError := rfl

theorem PlugIn_DoIOOperation_apply (st : DriverState) (n : Nat) (out : Nat → ℚ)
    (i : Nat) (hi : i < min n BUFFER_FRAMES) :
    (PlugIn_DoIOOperation st n out).1 i =
      ((List.range MAX_CHANNELS).map (fun ch => st.buffers ch i)).sum := by
  show mixChannels st (if n < BUFFER_FRAMES then n else BUFFER_FRAMES) out i = _
  rw [framesToCopy_eq, mixChannels_apply, if_pos hi]

theorem PlugIn_DoIOOperation_apply_ge (st : DriverState) (n : Nat) (out : Nat → ℚ)
    (i : Nat) (hi : ¬ i < min n BUFFER_FRAMES) :
    (PlugIn_DoIOOperation st n out).1 i = out i := by
  show mixChannels st (if n < BUFFER_FRAMES then n else BUFFER_FRAMES) out i = _
  rw [framesToCopy_eq, mixChannels_apply, if_neg hi]

/-! ### Sums of single-channel contributions -/

theorem sum_map_ite_zero_of_not_mem (L : List Nat) (c : Nat) (v : ℚ) (h : c ∉ L) :
    (L.map (fun ch => if ch = c then v else 0)).sum = 0 := by
  induction L with
  | nil => simp
  | cons a L ih =>
    rw [List.mem_cons, not_or] at h
    simp only [List.map_cons, List.sum_cons]
    rw [if_neg (fun ha => h.1 ha.symm), ih h.2, add_zero]

theorem sum_map_ite_of_nodup (L : List Nat) (c : Nat) (v : ℚ) (hnd : L.Nodup)
    (h : c ∈ L) :
    (L.map (fun ch => if ch = c then v else 0)).sum = v := by
  induction L with
  | nil => simp at h
  | cons a L ih =>
    rw [List.nodup_cons] at hnd
    by_cases hac : a = c
    · subst hac
      simp only [List.map_cons, List.sum_cons, if_true]
      rw [sum_map_ite_zero_of_not_mem L a v hnd.1, add_zero]
    · have hc : c ∈ L := by
        rcases List.mem_cons.mp h with h1 | h1
        · exact absurd h1.symm hac
        · exact h1
      simp only [List.map_cons, List.sum_cons]
      rw [if_neg hac, ih hnd.2 hc, zero_add]

theorem nodup_pids_run (ops : List Op) : (pidsOf (run ops).mappings).Nodup := by
  suffices hgen : ∀ (ops : List Op) (st : DriverState), (pidsOf st.mappings).Nodup →
      (pidsOf (ops.foldl applyOp st).mappings).Nodup by
    exact hgen ops initialState (by simp [initialState, pidsOf])
  intro ops
  induction ops with
  | nil => intro st h; simpa using h
  | cons op ops ih =>
    intro st h
    exact ih (applyOp st op) (nodup_pids_applyOp st op h)

/-! ### Miscellaneous helpers -/

theorem DriverState.ext2 (st1 st2 : DriverState) (hm : st1.mappings = st2.mappings)
    (hb : st1.buffers = st2.buffers) : st1 = st2 := by
  cases st1
  cases st2
  cases hm
  cases hb
  rfl

theorem PlugIn_DoIOOperation_congr (st1 st2 : DriverState)
    (h : st1.buffers = st2.buffers) (m : Nat) (out : Nat → ℚ) :
    PlugIn_DoIOOperation st1 m out = PlugIn_DoIOOperation st2 m out := by
  simp [PlugIn_DoIOOperation, mixChannels, h]

/-! ## Claims -/

/-- Claim C2: for every state of the channel buffer bank and every requested
frame count `n`, Produce (`PlugIn_DoIOOperation`) returns without error
(always `kAudioHardwareNoError`), and for every index `i < min n BUFFER_FRAMES`
the output sample at `i` equals the sum over all channels `ch ∈ [0, MAX_CHANNELS)`
of that channel's buffer sample at `i` — inactive and never-written channels
contribute their current contents (zero if never written, since they are part
of `st.buffers`), and the raw sum is written with no clipping applied. -/
theorem C2_produce_sums_all_channels (st : DriverState) (n : Nat) (out : Nat → ℚ)
    (i : Nat) (hi : i < min n BUFFER_FRAMES) :
    (PlugIn_DoIOOperation st n out).2 = kAudioHardwareNoError ∧
      (PlugIn_DoIOOperation st n out).1 i =
        ((List.range MAX_CHANNELS).map (fun ch => st.buffers ch i)).sum :=
  ⟨PlugIn_DoIOOperation_status st n out, PlugIn_DoIOOperation_apply st n out i hi⟩

/-- Witness for C2 at the freshly opened driver, requested count 4, index 0. -/
theorem C2_witness :
    (0 : Nat) < min 4 BUFFER_FRAMES ∧
      ((PlugIn_DoIOOperation initialState 4 (fun _ => 0)).2 = kAudioHardwareNoError ∧
        (PlugIn_DoIOOperation initialState 4 (fun _ => 0)).1 0 =
          ((List.range MAX_CHANNELS).map (fun ch => initialState.buffers ch 0)).sum) :=
  ⟨by decide, C2_produce_sums_all_channels initialState 4 (fun _ => 0) 0 (by decide)⟩

/-- Claim C6: a deposit for a process with no active routing-table entry
(`lookupActive` returns `none`, covering both never-registered and
unregistered pids) leaves the whole state — in particular every channel
buffer — unchanged, and signals no error (`RouteAudioToChannel` returns
`void`; in the embedding the unchanged state is the entire outcome), so a
Produce call before and after the deposit yields equal output. -/
theorem C6_unrouted_deposit_noop (st : DriverState) (p : Int) (s : Nat → ℚ) (n : Nat)
    (h : lookupActive p st.mappings = none) :
    RouteAudioToChannel p s n st = st ∧
      ∀ (m : Nat) (out : Nat → ℚ),
        PlugIn_DoIOOperation (RouteAudioToChannel p s n st) m out
          = PlugIn_DoIOOperation st m out := by
  refine ⟨RouteAudioToChannel_of_none p s n st h, ?_⟩
  intro m out
  rw [RouteAudioToChannel_of_none p s n st h]

/-- Witness for C6: pid 7 is not registered in the freshly opened driver. -/
theorem C6_witness :
    lookupActive 7 initialState.mappings = none ∧
      (RouteAudioToChannel 7 (fun _ => 1) 3 initialState = initialState ∧
        ∀ (m : Nat) (out : Nat → ℚ),
          PlugIn_DoIOOperation (RouteAudioToChannel 7 (fun _ => 1) 3 initialState) m out
            = PlugIn_DoIOOperation initialState m out) :=
  ⟨rfl, C6_unrouted_deposit_noop initialState 7 (fun _ => 1) 3 rfl⟩

/-- Claim C8: `UnmapPID` never modifies any channel buffer (first conjunct,
for every state and pid); in particular, after a process actively mapped to
an in-range channel deposits a chunk and is then unregistered, that channel's
buffer still holds the deposited values, and a subsequent Produce behaves
exactly as it would have before the unregister, continuing to mix those
values. -/
theorem C8_unregister_preserves_buffers (st : DriverState) (p c : Int)
    (s : Nat → ℚ) (n : Nat)
    (h : lookupActive p st.mappings = some c)
    (hc : 0 ≤ c ∧ c < (MAX_CHANNELS : Int)) (hn : n ≤ BUFFER_FRAMES) :
    (∀ (st2 : DriverState) (q : Int), (UnmapPID q st2).buffers = st2.buffers) ∧
      (∀ i, i < n →
        (UnmapPID p (RouteAudioToChannel p s n st)).buffers c.toNat i = s i) ∧
      ∀ (m : Nat) (out : Nat → ℚ),
        PlugIn_DoIOOperation (UnmapPID p (RouteAudioToChannel p s n st)) m out
          = PlugIn_DoIOOperation (RouteAudioToChannel p s n st) m out := by
  refine ⟨fun st2 q => UnmapPID_buffers q st2, ?_, ?_⟩
  · intro i hi
    rw [UnmapPID_buffers, RouteAudioToChannel_buffers_of_some p s n st c h hc]
    have hmin : i < min n BUFFER_FRAMES := lt_min hi (lt_of_lt_of_le hi hn)
    simp [hmin]
  · intro m out
    exact PlugIn_DoIOOperation_congr _ _ (UnmapPID_buffers p _) m out

/-- Witness for C8: pid 1 on channel 0 deposits 3 samples and is then
unregistered. -/
theorem C8_witness :
    lookupActive 1 (run [Op.register 1 0]).mappings = some 0 ∧
      (0 ≤ (0 : Int) ∧ (0 : Int) < (MAX_CHANNELS : Int)) ∧ (3 : Nat) ≤ BUFFER_FRAMES ∧
      ((∀ (st2 : DriverState) (q : Int), (UnmapPID q st2).buffers = st2.buffers) ∧
        (∀ i, i < 3 →
          (UnmapPID 1 (RouteAudioToChannel 1 (fun _ => 2) 3
            (run [Op.register 1 0]))).buffers (0 : Int).toNat i = (fun _ => (2 : ℚ)) i) ∧
        ∀ (m : Nat) (out : Nat → ℚ),
          PlugIn_DoIOOperation (UnmapPID 1 (RouteAudioToChannel 1 (fun _ => 2) 3
              (run [Op.register 1 0]))) m out
            = PlugIn_DoIOOperation (RouteAudioToChannel 1 (fun _ => 2) 3
                (run [Op.register 1 0])) m out) :=
  ⟨rfl, by decide, by decide,
    C8_unregister_preserves_buffers (run [Op.register 1 0]) 1 0 (fun _ => 2) 3
      rfl (by decide) (by decide)⟩

/-- Claim C5: a deposit whose frame count exceeds `BUFFER_FRAMES` stores
exactly the first `BUFFER_FRAMES` samples of the chunk in the mapped channel's
buffer (first conjunct), and the samples beyond index `BUFFER_FRAMES` are
discarded before any copy: replacing them by anything else yields the very
same post-deposit state (second conjunct), so they can never appear in any
subsequent Produce output, which is a function of the state alone. -/
theorem C5_oversized_deposit_clamped (st : DriverState) (p c : Int)
    (s s2 : Nat → ℚ) (n : Nat) (hn : BUFFER_FRAMES < n)
    (h : lookupActive p st.mappings = some c)
    (hc : 0 ≤ c ∧ c < (MAX_CHANNELS : Int))
    (hs : ∀ i, i < BUFFER_FRAMES → s i = s2 i) :
    (∀ i, i < BUFFER_FRAMES →
        (RouteAudioToChannel p s n st).buffers c.toNat i = s i) ∧
      RouteAudioToChannel p s n st = RouteAudioToChannel p s2 n st := by
  have hmin : min n BUFFER_FRAMES = BUFFER_FRAMES :=
    Nat.min_eq_right (Nat.le_of_lt hn)
  constructor
  · intro i hi
    rw [RouteAudioToChannel_buffers_of_some p s n st c h hc]
    simp [hmin, hi]
  · refine DriverState.ext2 _ _ ?_ ?_
    · rw [RouteAudioToChannel_mappings, RouteAudioToChannel_mappings]
    · rw [RouteAudioToChannel_buffers_of_some p s n st c h hc,
        RouteAudioToChannel_buffers_of_some p s2 n st c h hc]
      funext ch i
      by_cases hcond : ch = c.toNat ∧ i < min n BUFFER_FRAMES
      · rw [if_pos hcond, if_pos hcond]
        exact hs i (hmin ▸ hcond.2)
      · rw [if_neg hcond, if_neg hcond]

/-- Witness for C5: pid 1 on channel 0 deposits 2000 frames; replacing the
chunk beyond index `BUFFER_FRAMES` by zeros gives the identical state. -/
theorem C5_witness :
    BUFFER_FRAMES < 2000 ∧
      lookupActive 1 (run [Op.register 1 0]).mappings = some 0 ∧
      (0 ≤ (0 : Int) ∧ (0 : Int) < (MAX_CHANNELS : Int)) ∧
      (∀ i, i < BUFFER_FRAMES →
        (fun j => (j : ℚ)) i = (fun j => if j < BUFFER_FRAMES then (j : ℚ) else 0) i) ∧
      ((∀ i, i < BUFFER_FRAMES →
          (RouteAudioToChannel 1 (fun j => (j : ℚ)) 2000
            (run [Op.register 1 0])).buffers (0 : Int).toNat i = (fun j => (j : ℚ)) i) ∧
        RouteAudioToChannel 1 (fun j => (j : ℚ)) 2000 (run [Op.register 1 0])
          = RouteAudioToChannel 1 (fun j => if j < BUFFER_FRAMES then (j : ℚ) else 0) 2000
              (run [Op.register 1 0])) :=
  ⟨by decide, rfl, by decide, fun i hi => by simp [hi],
    C5_oversized_deposit_clamped (run [Op.register 1 0]) 1 0
      (fun j => (j : ℚ)) (fun j => if j < BUFFER_FRAMES then (j : ℚ) else 0) 2000
      (by decide) rfl (by decide) (fun i hi => by simp [hi])⟩

/-! ### Filter helpers for per-pid entry counting -/

/-- The active routing-table entries recorded for pid `p`. -/
def activeEntriesFor (p : Int) (ms : List PIDMapping) : List PIDMapping :=
  ms.filter (fun m => m.pid == p && m.active)

theorem filter_pid_eq_nil (p : Int) (ms : List PIDMapping) (h : p ∉ pidsOf ms) :
    ms.filter (fun m => m.pid == p) = [] := by
  induction ms with
  | nil => rfl
  | cons m ms ih =>
    rw [pidsOf_cons, List.mem_cons, not_or] at h
    rw [List.filter_cons]
    have hb : (m.pid == p) = false := beq_eq_false_iff_ne.mpr (fun hp => h.1 hp.symm)
    rw [hb]
    simpa using ih h.2

theorem length_filter_pid_le_one (p : Int) (ms : List PIDMapping)
    (hnd : (pidsOf ms).Nodup) : (ms.filter (fun m => m.pid == p)).length ≤ 1 := by
  induction ms with
  | nil => simp
  | cons m ms ih =>
    rw [pidsOf_cons, List.nodup_cons] at hnd
    rw [List.filter_cons]
    by_cases hm : m.pid = p
    · have hb : (m.pid == p) = true := beq_iff_eq.mpr hm
      rw [hb]
      have : ms.filter (fun m => m.pid == p) = [] :=
        filter_pid_eq_nil p ms (hm ▸ hnd.1)
      simp [this]
    · have hb : (m.pid == p) = false := beq_eq_false_iff_ne.mpr hm
      rw [hb]
      simpa using ih hnd.2

theorem activeEntriesFor_eq_nil (p : Int) (ms : List PIDMapping)
    (h : p ∉ pidsOf ms) : activeEntriesFor p ms = [] := by
  induction ms with
  | nil => rfl
  | cons m ms ih =>
    rw [pidsOf_cons, List.mem_cons, not_or] at h
    rw [activeEntriesFor, List.filter_cons]
    have hb : (m.pid == p) = false := beq_eq_false_iff_ne.mpr (fun hp => h.1 hp.symm)
    rw [hb]
    simpa [activeEntriesFor] using ih h.2

theorem activeEntriesFor_mapPIDUpdate (p c : Int) (ms ms2 : List PIDMapping)
    (hnd : (pidsOf ms).Nodup) (h : mapPIDUpdate p c ms = some ms2) :
    activeEntriesFor p ms2 = [{ pid := p, channel := c, active := true }] := by
  induction ms generalizing ms2 with
  | nil => simp [mapPIDUpdate] at h
  | cons m ms ih =>
    rw [pidsOf_cons, List.nodup_cons] at hnd
    by_cases hm : m.pid = p
    · simp [mapPIDUpdate, hm] at h
      subst h
      have htail : activeEntriesFor p ms = [] :=
        activeEntriesFor_eq_nil p ms (hm ▸ hnd.1)
      rw [activeEntriesFor, List.filter_cons]
      simp only [activeEntriesFor] at htail
      simp [htail]
    · simp [mapPIDUpdate, hm] at h
      rcases h with ⟨ms3, h3, rfl⟩
      rw [activeEntriesFor, List.filter_cons]
      have hb : (m.pid == p && m.active) = false := by
        simp [hm]
      rw [hb]
      simpa [activeEntriesFor] using ih ms3 hnd.2 h3

/-- Registering pid `p` in a duplicate-free table that already holds a slot
for `p` leaves exactly one active entry for `p`, carrying the new channel. -/
theorem activeEntriesFor_register (st : DriverState) (p c : Int)
    (hnd : (pidsOf st.mappings).Nodup) (hp : p ∈ pidsOf st.mappings) :
    activeEntriesFor p (MapPIDToChannel p c st).mappings
      = [{ pid := p, channel := c, active := true }] := by
  rcases mapPIDUpdate_isSome_of_mem p c st.mappings hp with ⟨ms2, h2⟩
  rw [MapPIDToChannel, h2]
  exact activeEntriesFor_mapPIDUpdate p c st.mappings ms2 hnd h2

/-- Claim C9: in every state reachable by any sequence of Register,
Unregister, Deposit and Produce operations from the freshly opened driver,
the routing table holds at most one entry — active or not — per process id
(the pid column is duplicate-free, so each pid's entry count is at most one),
and re-registration reuses that slot regardless of table occupancy: whenever
`p` already has a slot, `MapPIDToChannel p c` keeps the pid column unchanged
(no new slot, hence it succeeds even at full capacity) and leaves `p` actively
mapped to `c`. -/
theorem C9_at_most_one_entry_per_pid (ops : List Op) :
    (pidsOf (run ops).mappings).Nodup ∧
      (∀ p : Int, ((run ops).mappings.filter (fun m => m.pid == p)).length ≤ 1) ∧
      ∀ (p c : Int), p ∈ pidsOf (run ops).mappings →
        pidsOf (MapPIDToChannel p c (run ops)).mappings = pidsOf (run ops).mappings ∧
          lookupActive p (MapPIDToChannel p c (run ops)).mappings = some c := by
  refine ⟨nodup_pids_run ops, ?_, ?_⟩
  · intro p
    exact length_filter_pid_le_one p (run ops).mappings (nodup_pids_run ops)
  · intro p c hp
    exact MapPIDToChannel_of_mem p c (run ops) hp

/-- Witness for C9: after registering pid 1 on channel 2, re-registering it
on channel 3 keeps a single slot and routes to 3. -/
theorem C9_witness :
    (1 : Int) ∈ pidsOf (run [Op.register 1 2]).mappings ∧
      (pidsOf (MapPIDToChannel 1 3 (run [Op.register 1 2])).mappings
          = pidsOf (run [Op.register 1 2]).mappings ∧
        lookupActive 1 (MapPIDToChannel 1 3 (run [Op.register 1 2])).mappings = some 3) :=
  ⟨by decide, (C9_at_most_one_entry_per_pid [Op.register 1 2]).2.2 1 3 (by decide)⟩

/-- Claim C10: `MapPIDToChannel` performs no range check on the channel:
whenever `p` is registrable (already present, or the table below capacity) it
records *any* channel `c`, in-range or not, and a lookup then yields `some c`
(first conjunct).  For an out-of-range channel (`c < 0` or `c ≥ MAX_CHANNELS`),
every deposit for a process looked up to `c` is dropped by the guard
`0 <= ch && ch < MAX_CHANNELS` before the copy, leaving the whole state — in
particular every channel buffer — unchanged (second conjunct), so the
out-of-range index never reaches the buffer bank. -/
theorem C10_out_of_range_channel_is_inert (st : DriverState) (p c : Int)
    (hreg : p ∈ pidsOf st.mappings ∨ st.mappings.length < MAX_PID_MAPPINGS)
    (hc : c < 0 ∨ (MAX_CHANNELS : Int) ≤ c) :
    lookupActive p (MapPIDToChannel p c st).mappings = some c ∧
      ∀ (st2 : DriverState) (s : Nat → ℚ) (n : Nat),
        lookupActive p st2.mappings = some c → RouteAudioToChannel p s n st2 = st2 := by
  constructor
  · by_cases hmem : p ∈ pidsOf st.mappings
    · exact (MapPIDToChannel_of_mem p c st hmem).2
    · have hlen : st.mappings.length < MAX_PID_MAPPINGS := by
        rcases hreg with hmem2 | hlen
        · exact absurd hmem2 hmem
        · exact hlen
      rw [MapPIDToChannel_of_not_mem_lt p c st hmem hlen]
      exact lookupActive_append_single p c st.mappings hmem
  · intro st2 s n h2
    refine RouteAudioToChannel_of_out_of_range p s n st2 c h2 ?_
    intro hcc
    have h16 : (MAX_CHANNELS : Int) = 16 := rfl
    rw [h16] at hcc hc
    rcases hc with hneg | hbig
    · omega
    · omega

/-- Witness for C10: pid 1 registered on out-of-range channel 99; its deposit
is dropped. -/
theorem C10_witness :
    ((1 : Int) ∈ pidsOf initialState.mappings ∨
        initialState.mappings.length < MAX_PID_MAPPINGS) ∧
      ((99 : Int) < 0 ∨ (MAX_CHANNELS : Int) ≤ 99) ∧
      (lookupActive 1 (MapPIDToChannel 1 99 initialState).mappings = some 99 ∧
        ∀ (st2 : DriverState) (s : Nat → ℚ) (n : Nat),
          lookupActive 1 st2.mappings = some 99 → RouteAudioToChannel 1 s n st2 = st2) :=
  ⟨Or.inr (by decide), Or.inr (by decide),
    C10_out_of_range_channel_is_inert initialState 1 99 (Or.inr (by decide))
      (Or.inr (by decide))⟩

/-- Counterexample to claim C3 as stated: pid 1 is mapped to channel 0, a
full-length chunk of ones is deposited, then a chunk of length `1 < BUFFER_FRAMES`.
The claim demands that afterwards every sample of channel 0 from index 1 on be
zero, "regardless of what the buffer contained before the deposit"; but the C
code's `memcpy` copies only the first `frames` floats and leaves the tail
untouched, so sample 1 still holds the old value 1. -/
theorem C3_counterexample :
    (run [Op.register 1 0, Op.deposit 1 (fun _ => 1) BUFFER_FRAMES,
        Op.deposit 1 (fun _ => 5) 1]).buffers 0 1 ≠ 0 := by
  rw [show (run [Op.register 1 0, Op.deposit 1 (fun _ => 1) BUFFER_FRAMES,
      Op.deposit 1 (fun _ => 5) 1]).buffers 0 1 = (1 : ℚ) from rfl]
  norm_num

/-- Claim C3 as amended: after a deposit of a chunk of length
`n < BUFFER_FRAMES` for a process actively mapped to in-range channel `c`,
that channel's buffer equals the deposited chunk in its first `n` samples,
while every sample from `n` to `BUFFER_FRAMES` is *unchanged from before the
deposit* (zero only if it was zero before, e.g. in a freshly zeroed bank) —
the code does not zero-pad the tail. -/
theorem C3_amended_deposit_prefix_overwrite (st : DriverState) (p c : Int)
    (s : Nat → ℚ) (n : Nat)
    (h : lookupActive p st.mappings = some c)
    (hc : 0 ≤ c ∧ c < (MAX_CHANNELS : Int)) (hn : n < BUFFER_FRAMES) :
    (∀ i, i < n → (RouteAudioToChannel p s n st).buffers c.toNat i = s i) ∧
      ∀ i, n ≤ i →
        (RouteAudioToChannel p s n st).buffers c.toNat i = st.buffers c.toNat i := by
  have hmin : min n BUFFER_FRAMES = n := Nat.min_eq_left (Nat.le_of_lt hn)
  rw [RouteAudioToChannel_buffers_of_some p s n st c h hc]
  constructor
  · intro i hi
    simp [hmin, hi]
  · intro i hi
    have : ¬ i < min n BUFFER_FRAMES := by omega
    simp [this]

/-- Witness for C3 (amended): the deposit of the concrete length-1 chunk in
the counterexample run indeed writes sample 0 and leaves sample 1 alone. -/
theorem C3_witness :
    lookupActive 1 (run [Op.register 1 0,
        Op.deposit 1 (fun _ => 1) BUFFER_FRAMES]).mappings = some 0 ∧
      (0 ≤ (0 : Int) ∧ (0 : Int) < (MAX_CHANNELS : Int)) ∧ 1 < BUFFER_FRAMES ∧
      ((∀ i, i < 1 →
          (RouteAudioToChannel 1 (fun _ => 5) 1
            (run [Op.register 1 0, Op.deposit 1 (fun _ => 1) BUFFER_FRAMES])).buffers
              (0 : Int).toNat i = (fun _ => (5 : ℚ)) i) ∧
        ∀ i, 1 ≤ i →
          (RouteAudioToChannel 1 (fun _ => 5) 1
            (run [Op.register 1 0, Op.deposit 1 (fun _ => 1) BUFFER_FRAMES])).buffers
              (0 : Int).toNat i
            = (run [Op.register 1 0, Op.deposit 1 (fun _ => 1) BUFFER_FRAMES]).buffers
                (0 : Int).toNat i) :=
  ⟨rfl, by decide, by decide,
    C3_amended_deposit_prefix_overwrite
      (run [Op.register 1 0, Op.deposit 1 (fun _ => 1) BUFFER_FRAMES]) 1 0
      (fun _ => 5) 1 rfl (by decide) (by decide)⟩

/-! ### Registering a batch of fresh pids -/

theorem registerSeq_fresh (ps : List (Int × Int)) (st : DriverState)
    (hnd : (ps.map Prod.fst).Nodup)
    (hdisj : ∀ q ∈ ps.map Prod.fst, q ∉ pidsOf st.mappings)
    (hlen : st.mappings.length + ps.length ≤ MAX_PID_MAPPINGS) :
    ((ps.map (fun pc => Op.register pc.1 pc.2)).foldl applyOp st).mappings
      = st.mappings
        ++ ps.map (fun pc => { pid := pc.1, channel := pc.2, active := true }) := by
  induction ps generalizing st with
  | nil => simp
  | cons qc ps ih =>
    rw [List.map_cons, List.nodup_cons] at hnd
    simp only [List.map_cons, List.foldl_cons, applyOp]
    have hq : qc.1 ∉ pidsOf st.mappings := hdisj qc.1 (by simp)
    have hlt : st.mappings.length < MAX_PID_MAPPINGS := by
      rw [List.length_cons] at hlen
      omega
    have hm1 : (MapPIDToChannel qc.1 qc.2 st).mappings
        = st.mappings ++ [{ pid := qc.1, channel := qc.2, active := true }] :=
      MapPIDToChannel_of_not_mem_lt qc.1 qc.2 st hq hlt
    have hpids1 : pidsOf (MapPIDToChannel qc.1 qc.2 st).mappings
        = pidsOf st.mappings ++ [qc.1] := by
      rw [hm1, pidsOf_append]
      rfl
    have hdisj1 : ∀ q ∈ ps.map Prod.fst,
        q ∉ pidsOf (MapPIDToChannel qc.1 qc.2 st).mappings := by
      intro q hqmem
      rw [hpids1]
      intro hmem
      rcases List.mem_append.mp hmem with h1 | h1
      · exact hdisj q (List.mem_cons_of_mem _ hqmem) h1
      · exact hnd.1 ((List.mem_singleton.mp h1) ▸ hqmem)
    have hlen1 : (MapPIDToChannel qc.1 qc.2 st).mappings.length + ps.length
        ≤ MAX_PID_MAPPINGS := by
      rw [hm1, List.length_append, List.length_singleton]
      rw [List.length_cons] at hlen
      omega
    rw [ih (MapPIDToChannel qc.1 qc.2 st) hnd.2 hdisj1 hlen1, hm1, List.append_assoc]
    rfl

theorem lookupActive_entries (ps : List (Int × Int)) (q c : Int)
    (hnd : (ps.map Prod.fst).Nodup) (hmem : (q, c) ∈ ps) :
    lookupActive q (ps.map fun pc => { pid := pc.1, channel := pc.2, active := true })
      = some c := by
  induction ps with
  | nil => simp at hmem
  | cons ab ps ih =>
    rw [List.map_cons, List.nodup_cons] at hnd
    by_cases hq : ab.1 = q
    · have hab : ab = (q, c) := by
        rcases List.mem_cons.mp hmem with h1 | h1
        · exact h1.symm
        · exact absurd (hq ▸ List.mem_map_of_mem Prod.fst h1) hnd.1
      subst hab
      simp [lookupActive]
    · rw [List.map_cons]
      simp only [lookupActive]
      rw [if_neg (fun hc2 => hq hc2.1)]
      have hmem2 : (q, c) ∈ ps := by
        rcases List.mem_cons.mp hmem with h1 | h1
        · exact absurd (congrArg Prod.fst h1.symm) hq
        · exact h1
      exact ih hnd.2 hmem2

set_option maxRecDepth 4096 in
/-- Counterexample to claim C1 as stated: after 64 distinct pids
`0, …, 63` are registered from the freshly opened driver (a full table), the
65th registration — of the new pid 64 — is required by the claim to "fail with
an observable TableFull error returned to the caller".  The C function
`MapPIDToChannel` returns `void`: its entire caller-visible outcome is the
shared state, and that state is left *exactly unchanged* (first conjunct), so
no error of any kind reaches the caller; the spec-described register
(`registerSpec`) reports `tableFull` at the very same input (second conjunct),
exhibiting the divergence.  The unrouted part of the claim does hold: lookup
of pid 64 yields `none` (third conjunct). -/
theorem C1_counterexample :
    MapPIDToChannel 64 0 (run ((List.range 64).map (fun i => Op.register (i : Int) 0)))
        = run ((List.range 64).map (fun i => Op.register (i : Int) 0)) ∧
      registerSpec 64 0 (run ((List.range 64).map (fun i => Op.register (i : Int) 0)))
        = RegisterOutcome.tableFull ∧
      lookupActive 64
          (MapPIDToChannel 64 0
            (run ((List.range 64).map (fun i => Op.register (i : Int) 0)))).mappings
        = none :=
  ⟨rfl, rfl, rfl⟩

/-- Claim C1 as amended: for every sequence of registrations of
`MAX_PID_MAPPINGS + 1` distinct pids (64 pairs `ps` followed by a fresh pid
`p`), the first `MAX_PID_MAPPINGS` calls succeed — each registered pid is
actively routed to its channel — and the last call is *silently ignored*: the
C function returns `void`, so no `TableFull` error reaches the caller; the
table is left exactly unchanged and the failed process is left unrouted (a
subsequent lookup for it returns `none`). -/
theorem C1_amended_table_full_is_silent (ps : List (Int × Int)) (p c : Int)
    (hnd : (ps.map Prod.fst).Nodup) (hlen : ps.length = MAX_PID_MAPPINGS)
    (hp : p ∉ ps.map Prod.fst) :
    (∀ qc ∈ ps,
        lookupActive qc.1 (run (ps.map (fun pc => Op.register pc.1 pc.2))).mappings
          = some qc.2) ∧
      MapPIDToChannel p c (run (ps.map (fun pc => Op.register pc.1 pc.2)))
        = run (ps.map (fun pc => Op.register pc.1 pc.2)) ∧
      lookupActive p
          (MapPIDToChannel p c (run (ps.map (fun pc => Op.register pc.1 pc.2)))).mappings
        = none := by
  have hmaps : (run (ps.map (fun pc => Op.register pc.1 pc.2))).mappings
      = ps.map (fun pc => { pid := pc.1, channel := pc.2, active := true }) := by
    have h := registerSeq_fresh ps initialState hnd
      (by simp [initialState, pidsOf]) (by simp [initialState]; omega)
    simpa [run, initialState] using h
  have hpids : pidsOf (run (ps.map (fun pc => Op.register pc.1 pc.2))).mappings
      = ps.map Prod.fst := by
    rw [hmaps]
    simp [pidsOf, List.map_map]
  have hp2 : p ∉ pidsOf (run (ps.map (fun pc => Op.register pc.1 pc.2))).mappings := by
    rw [hpids]
    exact hp
  have hfull : ¬ (run (ps.map (fun pc => Op.register pc.1 pc.2))).mappings.length
      < MAX_PID_MAPPINGS := by
    rw [hmaps, List.length_map, hlen]
    omega
  have hnoop : MapPIDToChannel p c (run (ps.map (fun pc => Op.register pc.1 pc.2)))
      = run (ps.map (fun pc => Op.register pc.1 pc.2)) :=
    MapPIDToChannel_of_not_mem_full p c _ hp2 hfull
  refine ⟨?_, hnoop, ?_⟩
  · intro qc hqc
    rw [hmaps]
    exact lookupActive_entries ps qc.1 qc.2 hnd (by simpa using hqc)
  · rw [hnoop]
    exact lookupActive_eq_none_of_not_mem p _ hp2

/-- Witness for C1 (amended) at the concrete sequence registering pids
`0, …, 63` on channel 0 and then pid 64. -/
theorem C1_witness :
    ((((List.range 64).map (fun i => ((i : Int), (0 : Int)))).map Prod.fst).Nodup ∧
        ((List.range 64).map (fun i => ((i : Int), (0 : Int)))).length = MAX_PID_MAPPINGS ∧
        (64 : Int) ∉ ((List.range 64).map (fun i => ((i : Int), (0 : Int)))).map Prod.fst) ∧
      ((∀ qc ∈ (List.range 64).map (fun i => ((i : Int), (0 : Int))),
          lookupActive qc.1
              (run (((List.range 64).map (fun i => ((i : Int), (0 : Int)))).map
                (fun pc => Op.register pc.1 pc.2))).mappings
            = some qc.2) ∧
        MapPIDToChannel 64 0
            (run (((List.range 64).map (fun i => ((i : Int), (0 : Int)))).map
              (fun pc => Op.register pc.1 pc.2)))
          = run (((List.range 64).map (fun i => ((i : Int), (0 : Int)))).map
              (fun pc => Op.register pc.1 pc.2)) ∧
        lookupActive 64
            (MapPIDToChannel 64 0
              (run (((List.range 64).map (fun i => ((i : Int), (0 : Int)))).map
                (fun pc => Op.register pc.1 pc.2)))).mappings
          = none) :=
  ⟨⟨by decide, by decide, by decide⟩,
    C1_amended_table_full_is_silent ((List.range 64).map (fun i => ((i : Int), (0 : Int))))
      64 0 (by decide) (by decide) (by decide)⟩

set_option maxRecDepth 4096 in
/-- Counterexample to claim C4 as stated: the claim quantifies over *any*
table state.  Take the reachable state in which 64 distinct pids `0, …, 63`
fill the table and a fresh pid 100: both `Register(100, 0)` and the subsequent
`Register(100, 1)` are silently dropped by the capacity check, so the table
ends with *zero* active entries for pid 100 — not the required single entry
with channel 1. -/
theorem C4_counterexample :
    activeEntriesFor 100
        (MapPIDToChannel 100 1 (MapPIDToChannel 100 0
          (run ((List.range 64).map (fun i => Op.register (i : Int) 0))))).mappings
      = [] :=
  rfl

/-- Claim C4 as amended: from any *reachable* table state in which `p` is
registrable — `p` already has a slot, or the table is below capacity —
calling `Register(p, c1)` and then `Register(p, c2)` leaves exactly one
active entry for `p`, and that entry's channel is `c2`; the second
registration supersedes the first in place, with no queueing of the old
assignment. -/
theorem C4_amended_reregistration_supersedes (ops : List Op) (p c1 c2 : Int)
    (hreg : p ∈ pidsOf (run ops).mappings
      ∨ (run ops).mappings.length < MAX_PID_MAPPINGS) :
    activeEntriesFor p
        (MapPIDToChannel p c2 (MapPIDToChannel p c1 (run ops))).mappings
      = [{ pid := p, channel := c2, active := true }] := by
  have key : ∀ (st : DriverState), (pidsOf st.mappings).Nodup →
      (p ∈ pidsOf st.mappings ∨ st.mappings.length < MAX_PID_MAPPINGS) →
      activeEntriesFor p (MapPIDToChannel p c2 (MapPIDToChannel p c1 st)).mappings
        = [{ pid := p, channel := c2, active := true }] := by
    intro st hnd hst
    by_cases hp : p ∈ pidsOf st.mappings
    · have h1 := MapPIDToChannel_of_mem p c1 st hp
      have hnd1 : (pidsOf (MapPIDToChannel p c1 st).mappings).Nodup := by
        rw [h1.1]
        exact hnd
      have hp1 : p ∈ pidsOf (MapPIDToChannel p c1 st).mappings := by
        rw [h1.1]
        exact hp
      exact activeEntriesFor_register _ p c2 hnd1 hp1
    · have hlen : st.mappings.length < MAX_PID_MAPPINGS := by
        rcases hst with h1 | h1
        · exact absurd h1 hp
        · exact h1
      have hm1 : (MapPIDToChannel p c1 st).mappings
          = st.mappings ++ [{ pid := p, channel := c1, active := true }] :=
        MapPIDToChannel_of_not_mem_lt p c1 st hp hlen
      have hpids1 : pidsOf (MapPIDToChannel p c1 st).mappings
          = pidsOf st.mappings ++ [p] := by
        rw [hm1, pidsOf_append]
        rfl
      have hnd1 : (pidsOf (MapPIDToChannel p c1 st).mappings).Nodup := by
        rw [hpids1]
        exact List.Nodup.append hnd (List.nodup_singleton p)
          (fun a ha hb => hp ((List.mem_singleton.mp hb) ▸ ha))
      have hp1 : p ∈ pidsOf (MapPIDToChannel p c1 st).mappings := by
        rw [hpids1]
        simp
      exact activeEntriesFor_register _ p c2 hnd1 hp1
  exact key (run ops) (nodup_pids_run ops) hreg

/-- Witness for C4 (amended): pid 5, registered once, re-registered from
channel 1 to channel 2. -/
theorem C4_witness :
    ((5 : Int) ∈ pidsOf (run [Op.register 5 0]).mappings
        ∨ (run [Op.register 5 0]).mappings.length < MAX_PID_MAPPINGS) ∧
      activeEntriesFor 5
          (MapPIDToChannel 5 2 (MapPIDToChannel 5 1 (run [Op.register 5 0]))).mappings
        = [{ pid := 5, channel := 2, active := true }] :=
  ⟨Or.inl (by decide),
    C4_amended_reregistration_supersedes [Op.register 5 0] 5 1 2 (Or.inl (by decide))⟩

/-- A concrete state with two processes on distinct channels and zeroed
buffers, used to instantiate the mix-linearity claim. -/
def twoProcState : DriverState :=
  { mappings := [{ pid := 1, channel := 0, active := true },
                 { pid := 2, channel := 1, active := true }],
    buffers := fun _ _ => 0 }

/-- Claim C7: with `p1`, `p2` actively mapped to distinct in-range channels
and an otherwise-zeroed buffer bank, depositing chunks `s1` (length `n1`) and
`s2` (length `n2`) makes every produced output sample the elementwise sum of
the two chunks, each zero-padded past its own length (first conjunct); and
the final state is identical whichever deposit is performed first (second
conjunct). -/
theorem C7_mix_linearity (st : DriverState) (p1 p2 c1 c2 : Int)
    (s1 s2 : Nat → ℚ) (n1 n2 : Nat)
    (h1 : lookupActive p1 st.mappings = some c1)
    (h2 : lookupActive p2 st.mappings = some c2)
    (hc1 : 0 ≤ c1 ∧ c1 < (MAX_CHANNELS : Int))
    (hc2 : 0 ≤ c2 ∧ c2 < (MAX_CHANNELS : Int))
    (hne : c1 ≠ c2)
    (hz : st.buffers = fun _ _ => 0)
    (hn1 : n1 ≤ BUFFER_FRAMES) (hn2 : n2 ≤ BUFFER_FRAMES) :
    (∀ (n : Nat) (out : Nat → ℚ) (i : Nat), i < min n BUFFER_FRAMES →
        (PlugIn_DoIOOperation
            (RouteAudioToChannel p2 s2 n2 (RouteAudioToChannel p1 s1 n1 st)) n out).1 i
          = (if i < n1 then s1 i else 0) + (if i < n2 then s2 i else 0)) ∧
      RouteAudioToChannel p2 s2 n2 (RouteAudioToChannel p1 s1 n1 st)
        = RouteAudioToChannel p1 s1 n1 (RouteAudioToChannel p2 s2 n2 st) := by
  obtain ⟨hc1a, hc1b⟩ := hc1
  obtain ⟨hc2a, hc2b⟩ := hc2
  have h16 : (MAX_CHANNELS : Int) = 16 := rfl
  have hmin1 : min n1 BUFFER_FRAMES = n1 := Nat.min_eq_left hn1
  have hmin2 : min n2 BUFFER_FRAMES = n2 := Nat.min_eq_left hn2
  have hm1 : (RouteAudioToChannel p1 s1 n1 st).mappings = st.mappings :=
    RouteAudioToChannel_mappings p1 s1 n1 st
  have hm2 : (RouteAudioToChannel p2 s2 n2 st).mappings = st.mappings :=
    RouteAudioToChannel_mappings p2 s2 n2 st
  have h2i : lookupActive p2 (RouteAudioToChannel p1 s1 n1 st).mappings = some c2 := by
    rw [hm1]
    exact h2
  have h1i : lookupActive p1 (RouteAudioToChannel p2 s2 n2 st).mappings = some c1 := by
    rw [hm2]
    exact h1
  have hb1 : (RouteAudioToChannel p1 s1 n1 st).buffers = fun c i =>
      if c = c1.toNat ∧ i < min n1 BUFFER_FRAMES then s1 i else st.buffers c i :=
    RouteAudioToChannel_buffers_of_some p1 s1 n1 st c1 h1 ⟨hc1a, hc1b⟩
  have hb2 : (RouteAudioToChannel p2 s2 n2 st).buffers = fun c i =>
      if c = c2.toNat ∧ i < min n2 BUFFER_FRAMES then s2 i else st.buffers c i :=
    RouteAudioToChannel_buffers_of_some p2 s2 n2 st c2 h2 ⟨hc2a, hc2b⟩
  have hb21 : (RouteAudioToChannel p2 s2 n2 (RouteAudioToChannel p1 s1 n1 st)).buffers
      = fun c i => if c = c2.toNat ∧ i < min n2 BUFFER_FRAMES then s2 i
          else (RouteAudioToChannel p1 s1 n1 st).buffers c i :=
    RouteAudioToChannel_buffers_of_some p2 s2 n2 _ c2 h2i ⟨hc2a, hc2b⟩
  have hb12 : (RouteAudioToChannel p1 s1 n1 (RouteAudioToChannel p2 s2 n2 st)).buffers
      = fun c i => if c = c1.toNat ∧ i < min n1 BUFFER_FRAMES then s1 i
          else (RouteAudioToChannel p2 s2 n2 st).buffers c i :=
    RouteAudioToChannel_buffers_of_some p1 s1 n1 _ c1 h1i ⟨hc1a, hc1b⟩
  have hneN : c1.toNat ≠ c2.toNat := by
    intro hEq
    apply hne
    omega
  have hneN2 : c2.toNat ≠ c1.toNat := fun hEq => hneN hEq.symm
  constructor
  · intro n out i hi
    rw [PlugIn_DoIOOperation_apply _ n out i hi]
    have hbuf : ∀ ch : Nat,
        (RouteAudioToChannel p2 s2 n2 (RouteAudioToChannel p1 s1 n1 st)).buffers ch i
          = (if ch = c1.toNat then (if i < n1 then s1 i else 0) else 0)
            + (if ch = c2.toNat then (if i < n2 then s2 i else 0) else 0) := by
      intro ch
      simp only [hb21, hb1, hz, hmin1, hmin2]
      by_cases e2 : ch = c2.toNat
      · have e1 : ¬ ch = c1.toNat := fun hcc => hneN (hcc.symm.trans e2)
        by_cases hi2 : i < n2
        · simp [e1, e2, hi2, hneN, hneN2]
        · simp [e1, e2, hi2, hneN, hneN2]
      · by_cases e1 : ch = c1.toNat
        · by_cases hi1 : i < n1
          · simp [e1, e2, hi1, hneN, hneN2]
          · simp [e1, e2, hi1, hneN, hneN2]
        · simp [e1, e2]
    have hcongr : (List.range MAX_CHANNELS).map
          (fun ch => (RouteAudioToChannel p2 s2 n2
            (RouteAudioToChannel p1 s1 n1 st)).buffers ch i)
        = (List.range MAX_CHANNELS).map
            (fun ch => (if ch = c1.toNat then (if i < n1 then s1 i else 0) else 0)
              + (if ch = c2.toNat then (if i < n2 then s2 i else 0) else 0)) :=
      List.map_congr_left (fun ch _ => hbuf ch)
    rw [hcongr, List.sum_map_add]
    have hcm1 : c1.toNat ∈ List.range MAX_CHANNELS := by
      apply List.mem_range.mpr
      rw [h16] at hc1b
      have : MAX_CHANNELS = 16 := rfl
      omega
    have hcm2 : c2.toNat ∈ List.range MAX_CHANNELS := by
      apply List.mem_range.mpr
      rw [h16] at hc2b
      have : MAX_CHANNELS = 16 := rfl
      omega
    rw [sum_map_ite_of_nodup (List.range MAX_CHANNELS) c1.toNat _
        (List.nodup_range MAX_CHANNELS) hcm1,
      sum_map_ite_of_nodup (List.range MAX_CHANNELS) c2.toNat _
        (List.nodup_range MAX_CHANNELS) hcm2]
  · refine DriverState.ext2 _ _ ?_ ?_
    · rw [RouteAudioToChannel_mappings, hm1, RouteAudioToChannel_mappings, hm2]
    · rw [hb21, hb12, hb1, hb2]
      funext c i
      by_cases e1 : c = c1.toNat
      · have e2 : ¬ c = c2.toNat := fun hcc => hneN (e1.symm.trans hcc)
        simp [e1, e2, hneN, hneN2]
      · by_cases e2 : c = c2.toNat
        · simp [e1, e2, hneN, hneN2]
        · simp [e1, e2]

/-- Witness for C7: pids 1 and 2 on channels 0 and 1 of `twoProcState`,
depositing constant chunks of length 4 and 8. -/
theorem C7_witness :
    (lookupActive 1 twoProcState.mappings = some 0 ∧
        lookupActive 2 twoProcState.mappings = some 1 ∧
        (0 ≤ (0 : Int) ∧ (0 : Int) < (MAX_CHANNELS : Int)) ∧
        (0 ≤ (1 : Int) ∧ (1 : Int) < (MAX_CHANNELS : Int)) ∧
        (0 : Int) ≠ 1 ∧ twoProcState.buffers = (fun _ _ => 0) ∧
        (4 : Nat) ≤ BUFFER_FRAMES ∧ (8 : Nat) ≤ BUFFER_FRAMES) ∧
      ((∀ (n : Nat) (out : Nat → ℚ) (i : Nat), i < min n BUFFER_FRAMES →
          (PlugIn_DoIOOperation
              (RouteAudioToChannel 2 (fun _ => 3) 8
                (RouteAudioToChannel 1 (fun _ => 2) 4 twoProcState)) n out).1 i
            = (if i < 4 then (fun _ => (2 : ℚ)) i else 0)
              + (if i < 8 then (fun _ => (3 : ℚ)) i else 0)) ∧
        RouteAudioToChannel 2 (fun _ => 3) 8
            (RouteAudioToChannel 1 (fun _ => 2) 4 twoProcState)
          = RouteAudioToChannel 1 (fun _ => 2) 4
              (RouteAudioToChannel 2 (fun _ => 3) 8 twoProcState)) :=
  ⟨⟨rfl, rfl, by decide, by decide, by decide, rfl, by decide, by decide⟩,
    C7_mix_linearity twoProcState 1 2 0 1 (fun _ => 2) (fun _ => 3) 4 8
      rfl rfl (by decide) (by decide) (by decide) rfl (by decide) (by decide)⟩
